import Mathlib

/-!
Verification of `src/watch.rs` (lifecycle-watching task.)

The Rust code is shallowly embedded as follows.

* A futures-0.1 pollable with item/error payloads discarded is a `Pollable`:
  a behaviour function `Nat → PollRes` giving the answer to the k-th poll,
  together with a counter of polls made so far.  `Pollable.poll` returns the
  current answer and advances the counter, matching the by-`&mut` polling of
  `ContextFut::poll` and `RecipientRequest::poll`.
* `WatchEvent` mirrors the `WatchEvent` enum (single variant `Stopped`).
* A `Recipient<WatchEvent>` is a `Recipient`: its `send` returns the
  delivery-in-progress pollable, as `Recipient::send` does in actix.
* `Watcher` mirrors the `Watcher` struct: `fut` (the supervised lifecycle
  future), `subscribers`, and `notifications` (the pending deliveries).
* `Watcher.poll` mirrors `<Watcher as Future>::poll`; in addition to the
  poll result and updated state it returns, as an observation trace, the
  list of subscriber indices on which `send` was invoked during this call
  (the `notify` loop iterates subscribers in order, so a firing emits
  `List.range subscribers.length`).
-/

/-- Result of polling a futures-0.1 future with payloads discarded:
`Ok(Async::NotReady)`, `Ok(Async::Ready(_))`, or `Err(_)`. -/
inductive PollRes : Type where
  | notReady : PollRes
  | ready : PollRes
  | err : PollRes
deriving DecidableEq, Repr

/-- A non-blocking pollable: `behav k` is the answer to the k-th poll of this
object, `polls` counts the polls made so far. -/
structure Pollable : Type where
  behav : Nat → PollRes
  polls : Nat

/-- Poll once: report the current answer and advance the internal cursor. -/
def Pollable.poll (p : Pollable) : PollRes × Pollable :=
  (p.behav p.polls, { p with polls := p.polls + 1 })

/-- The `WatchEvent` enum of watch.rs: a single variant `Stopped`. -/
inductive WatchEvent : Type where
  | Stopped : WatchEvent
deriving DecidableEq, Repr

/-- A `Recipient<WatchEvent>`: `send` enqueues a notification and returns the
pollable tracking delivery-in-progress. -/
structure Recipient : Type where
  send : WatchEvent → Pollable

/-- The `Watcher` struct of watch.rs. -/
structure Watcher : Type where
  fut : Option Pollable
  subscribers : List Recipient
  notifications : List Pollable

/-- Mirrors `Watcher::new`. -/
def Watcher.new (r : Recipient) (f : Pollable) : Watcher :=
  { fut := some f, subscribers := [r], notifications := [] }

/-- Mirrors `Watcher::notify`: for each subscriber in order, push the delivery
pollable returned by `send(event.clone())` onto `notifications`. -/
def Watcher.notify (w : Watcher) (event : WatchEvent) : Watcher :=
  { w with notifications := w.notifications ++ w.subscribers.map (fun s => s.send event) }

/-- Mirrors `Watcher::poll_for_event`: poll the lifecycle future once if present;
`Ready(_)` and `Err(_)` both yield `Some(Stopped)`, `NotReady` yields `None`.
The updated future (its cursor advanced by the poll) is stored back, as the
`&mut` borrow does in Rust. -/
def Watcher.poll_for_event (w : Watcher) : Option WatchEvent × Watcher :=
  match w.fut with
  | some f =>
    match f.poll with
    | (PollRes.notReady, f') => (none, { w with fut := some f' })
    | (PollRes.ready, f') => (some WatchEvent.Stopped, { w with fut := some f' })
    | (PollRes.err, f') => (some WatchEvent.Stopped, { w with fut := some f' })
  | none => (none, w)

/-- One poll of a pending delivery inside `poll_notifications`:
`NotReady` keeps the (advanced) entry, `Ready(_)` and `Err(_)` drop it. -/
def Pollable.pollKeep (p : Pollable) : Option Pollable :=
  match p.poll with
  | (PollRes.notReady, p') => some p'
  | (PollRes.ready, _) => none
  | (PollRes.err, _) => none

/-- The `while let Some(mut n) = notifications.pop()` loop of
`poll_notifications`.  The first argument is `self.notifications` (emptied by
`split_off(0)`, receiving the surviving entries via `push`); the second is the
local vector in pop order, i.e. the original list reversed. -/
def drainLoop : List Pollable → List Pollable → List Pollable
  | kept, [] => kept
  | kept, n :: rest =>
    match n.poll with
    | (PollRes.notReady, n') => drainLoop (kept ++ [n']) rest
    | (PollRes.ready, _) => drainLoop kept rest
    | (PollRes.err, _) => drainLoop kept rest

/-- Mirrors `Watcher::poll_notifications`: take the pending list, poll each entry once
popping from the end, keep the not-ready ones, and report ready iff the
pending list is now empty. -/
def Watcher.poll_notifications (w : Watcher) : PollRes × Watcher :=
  let kept := drainLoop [] w.notifications.reverse
  (if kept.isEmpty then PollRes.ready else PollRes.notReady,
   { w with notifications := kept })

/-- Output of one `Watcher::poll`: result, updated state, and the observation
trace `sent` of subscriber indices on which `send` was invoked in this call. -/
structure PollOut : Type where
  res : PollRes
  state : Watcher
  sent : List Nat

/-- Mirrors `<Watcher as Future>::poll`: if `poll_for_event` observes termination,
fan out the notification and discard the lifecycle future; then, when the
lifecycle future is absent, drain the pending deliveries, else report
not-ready. -/
def Watcher.poll (w : Watcher) : PollOut :=
  match w.poll_for_event with
  | (some e, w1) =>
    let w2 := { w1.notify e with fut := none }
    let out := w2.poll_notifications
    { res := out.1, state := out.2, sent := List.range w1.subscribers.length }
  | (none, w1) =>
    match w1.fut with
    | none =>
      let out := w1.poll_notifications
      { res := out.1, state := out.2, sent := [] }
    | some _ => { res := PollRes.notReady, state := w1, sent := [] }

/-- State after `n` scheduler invocations of `poll`. -/
def Watcher.iter (w : Watcher) : Nat → Watcher
  | 0 => w
  | n + 1 => ((w.iter n).poll).state

/-- Result reported by the (n+1)-st poll (0-indexed). -/
def Watcher.resAt (w : Watcher) (n : Nat) : PollRes :=
  ((w.iter n).poll).res

/-- Subscriber indices `send` was invoked on during the (n+1)-st poll. -/
def Watcher.sentAt (w : Watcher) (n : Nat) : List Nat :=
  ((w.iter n).poll).sent

/-- Whether the (n+1)-st poll observes the lifecycle termination (the
present-to-absent transition fires on this poll). -/
def Watcher.firesAt (w : Watcher) (n : Nat) : Bool :=
  (((w.iter n).poll_for_event).1).isSome

def alwaysReady : Pollable := { behav := fun _ => PollRes.ready, polls := 0 }

def alwaysNotReady : Pollable := { behav := fun _ => PollRes.notReady, polls := 0 }

def alwaysErr : Pollable := { behav := fun _ => PollRes.err, polls := 0 }

def readyRecipient : Recipient := { send := fun _ => alwaysReady }

/-- A Watcher whose lifecycle future and the single delivery both resolve on
their first poll: it is Done after its very first poll. -/
def wInstant : Watcher := Watcher.new readyRecipient alwaysReady

/-- A Watcher whose lifecycle future never resolves. -/
def wNotYet : Watcher := Watcher.new readyRecipient alwaysNotReady

/-- A Watcher past its lifecycle transition with one permanently not-ready
delivery outstanding. -/
def wDrain : Watcher :=
  { fut := none, subscribers := [], notifications := [alwaysNotReady] }

/-- A Watcher in the Done state. -/
def wDone : Watcher :=
  { fut := none, subscribers := [], notifications := [] }

/-- Modelled from the spec: the bounded channel send side (the address/
mailbox subsystem is outside src); it records the capacity it was made with. -/
structure Sender : Type where
  capacity : Nat

/-- Modelled from the spec: the bounded channel receive side. -/
structure Receiver : Type where
  capacity : Nat

/-- Modelled from the spec: the bounded channel primitive
`make(capacity) -> (Sender, Receiver)`. -/
def channel (cap : Nat) : Sender × Receiver :=
  ({ capacity := cap }, { capacity := cap })

/-- Modelled from the spec: the fixed default mailbox capacity constant
(`DEFAULT_CAPACITY` of the mailbox module, outside src). -/
def DEFAULT_CAPACITY : Nat := 16

/-- Modelled from the spec: the opaque address handle, bound to the send
side of a channel. -/
structure Addr : Type where
  sender : Sender

/-- Modelled from the spec: `Addr::new(tx)`. -/
def Addr.new (tx : Sender) : Addr :=
  { sender := tx }

/-- Modelled from the spec: the actor execution context, built from the
channel receive side (`Context::with_receiver(rx)`). -/
structure ActorContext : Type where
  rx : Receiver

/-- Modelled from the spec: the deferred `Execute` closure submitted to the
target arbiter by `do_send`.  It captures the channel receive side, the
subscriber, and the actor build function, unevaluated until the closure is
run on the target thread. -/
structure Execute (A : Type) : Type where
  rx : Receiver
  subscriber : Recipient
  build : ActorContext → A

/-- Modelled from the spec: running the Execute closure body on the target
thread — construct the context with the receiver, build the actor, derive
its run future (via the external `into_future`), and register the Watcher. -/
def Execute.run {A : Type} (into_future : ActorContext → A → Pollable)
    (e : Execute A) : Watcher :=
  Watcher.new e.subscriber (into_future { rx := e.rx } (e.build { rx := e.rx }))

/-- Mirrors `Watcher::start_in_arbiter`: make a bounded channel with the default
capacity, submit the construction closure to the target arbiter (modelled as
its queue of pending Execute messages, `do_send` appending to it), and
immediately return an address on the channel send side. -/
def start_in_arbiter {A : Type} (sys : List (Execute A)) (r : Recipient)
    (f : ActorContext → A) : Addr × List (Execute A) :=
  let tx := (channel DEFAULT_CAPACITY).1
  let rx := (channel DEFAULT_CAPACITY).2
  (Addr.new tx, sys ++ [{ rx := rx, subscriber := r, build := f }])

/-- The drain loop appends to its accumulator the not-ready survivors of the
processed list, each polled exactly once. -/
theorem drainLoop_eq (kept l : List Pollable) :
    drainLoop kept l = kept ++ l.filterMap Pollable.pollKeep := by
  induction l generalizing kept with
  | nil => simp [drainLoop]
  | cons n rest ih =>
    cases hr : n.behav n.polls <;>
      simp [drainLoop, Pollable.pollKeep, Pollable.poll, hr, ih]

theorem poll_notifications_state (w : Watcher) :
    (w.poll_notifications).2 =
      { w with notifications := w.notifications.reverse.filterMap Pollable.pollKeep } := by
  simp [Watcher.poll_notifications, drainLoop_eq]

theorem poll_notifications_res (w : Watcher) :
    (w.poll_notifications).1 =
      if (w.notifications.reverse.filterMap Pollable.pollKeep).isEmpty
      then PollRes.ready else PollRes.notReady := by
  simp only [Watcher.poll_notifications]
  rw [drainLoop_eq]
  simp

theorem pfe_none (w : Watcher) (h : w.fut = none) : w.poll_for_event = (none, w) := by
  simp [Watcher.poll_for_event, h]

theorem pfe_notReady (w : Watcher) (f : Pollable) (h : w.fut = some f)
    (hr : f.behav f.polls = PollRes.notReady) :
    w.poll_for_event = (none, { w with fut := some { f with polls := f.polls + 1 } }) := by
  simp [Watcher.poll_for_event, h, Pollable.poll, hr]

theorem pfe_fired (w : Watcher) (f : Pollable) (h : w.fut = some f)
    (hr : f.behav f.polls ≠ PollRes.notReady) :
    w.poll_for_event =
      (some WatchEvent.Stopped, { w with fut := some { f with polls := f.polls + 1 } }) := by
  cases hv : f.behav f.polls
  · exact absurd hv hr
  · simp [Watcher.poll_for_event, h, Pollable.poll, hv]
  · simp [Watcher.poll_for_event, h, Pollable.poll, hv]

theorem poll_eq_fut_none (w : Watcher) (h : w.fut = none) :
    w.poll = { res := (w.poll_notifications).1, state := (w.poll_notifications).2,
               sent := [] } := by
  simp [Watcher.poll, pfe_none w h, h]

theorem poll_eq_notReady (w : Watcher) (f : Pollable) (h : w.fut = some f)
    (hr : f.behav f.polls = PollRes.notReady) :
    w.poll = { res := PollRes.notReady,
               state := { w with fut := some { f with polls := f.polls + 1 } },
               sent := [] } := by
  simp [Watcher.poll, pfe_notReady w f h hr]

theorem poll_eq_fired (w : Watcher) (f : Pollable) (h : w.fut = some f)
    (hr : f.behav f.polls ≠ PollRes.notReady) :
    w.poll =
      { res := (Watcher.poll_notifications
          { fut := none, subscribers := w.subscribers,
            notifications := w.notifications
              ++ w.subscribers.map (fun s => s.send WatchEvent.Stopped) }).1,
        state := (Watcher.poll_notifications
          { fut := none, subscribers := w.subscribers,
            notifications := w.notifications
              ++ w.subscribers.map (fun s => s.send WatchEvent.Stopped) }).2,
        sent := List.range w.subscribers.length } := by
  simp [Watcher.poll, pfe_fired w f h hr, Watcher.notify]

theorem subscribers_poll (w : Watcher) : (w.poll).state.subscribers = w.subscribers := by
  rcases h : w.fut with _ | f
  · rw [poll_eq_fut_none w h, poll_notifications_state]
  · cases hr : f.behav f.polls
    · rw [poll_eq_notReady w f h hr]
    · rw [poll_eq_fired w f h (by simp [hr]), poll_notifications_state]
    · rw [poll_eq_fired w f h (by simp [hr]), poll_notifications_state]

theorem subscribers_iter (w : Watcher) (n : Nat) :
    (w.iter n).subscribers = w.subscribers := by
  induction n with
  | zero => rfl
  | succ n ih => rw [Watcher.iter, subscribers_poll, ih]

theorem fut_poll_of_none (w : Watcher) (h : w.fut = none) :
    (w.poll).state.fut = none := by
  rw [poll_eq_fut_none w h, poll_notifications_state]
  exact h

theorem fut_poll_of_fired (w : Watcher) (f : Pollable) (h : w.fut = some f)
    (hr : f.behav f.polls ≠ PollRes.notReady) :
    (w.poll).state.fut = none := by
  rw [poll_eq_fired w f h hr, poll_notifications_state]

theorem fut_iter_none_mono (w : Watcher) (n m : Nat) (h : (w.iter n).fut = none)
    (hnm : n ≤ m) : (w.iter m).fut = none := by
  induction m with
  | zero =>
    have : n = 0 := Nat.le_zero.mp hnm
    rw [← this]; exact h
  | succ m ih =>
    rcases Nat.lt_or_ge n (m + 1) with hlt | hge
    · have hm : (w.iter m).fut = none := ih (Nat.lt_succ_iff.mp hlt)
      rw [Watcher.iter]
      exact fut_poll_of_none _ hm
    · have : n = m + 1 := Nat.le_antisymm hnm hge
      rw [← this]; exact h

theorem firesAt_iff (w : Watcher) (n : Nat) :
    w.firesAt n = true ↔
      ∃ f, (w.iter n).fut = some f ∧ f.behav f.polls ≠ PollRes.notReady := by
  constructor
  · intro h
    rcases hf : (w.iter n).fut with _ | f
    · rw [Watcher.firesAt, pfe_none _ hf] at h
      simp at h
    · refine ⟨f, rfl, ?_⟩
      intro hr
      rw [Watcher.firesAt, pfe_notReady _ f hf hr] at h
      simp at h
  · rintro ⟨f, hf, hr⟩
    rw [Watcher.firesAt, pfe_fired _ f hf hr]
    rfl

theorem fut_succ_none_of_fires (w : Watcher) (n : Nat) (h : w.firesAt n = true) :
    (w.iter (n + 1)).fut = none := by
  rcases (firesAt_iff w n).mp h with ⟨f, hf, hr⟩
  rw [Watcher.iter]
  exact fut_poll_of_fired _ f hf hr

theorem not_fires_of_fut_none (w : Watcher) (n : Nat) (h : (w.iter n).fut = none) :
    w.firesAt n = false := by
  rw [Watcher.firesAt, pfe_none _ h]
  rfl

theorem ite_res_eq_ready (c : Bool) :
    (if c then PollRes.ready else PollRes.notReady) = PollRes.ready ↔ c = true := by
  cases c <;> simp

theorem poll_ready_iff (w : Watcher) :
    (w.poll).res = PollRes.ready ↔
      ((w.poll).state.fut = none ∧ (w.poll).state.notifications = []) := by
  rcases h : w.fut with _ | f
  · rw [poll_eq_fut_none _ h]
    rw [poll_notifications_res, poll_notifications_state]
    simp [ite_res_eq_ready, h, List.isEmpty_iff]
  · cases hr : f.behav f.polls
    case notReady =>
      rw [poll_eq_notReady _ f h hr]
      simp
    all_goals {
      have hne : f.behav f.polls ≠ PollRes.notReady := by rw [hr]; simp
      rw [poll_eq_fired _ f h hne]
      rw [poll_notifications_res, poll_notifications_state]
      simp [ite_res_eq_ready, List.isEmpty_iff] }

/-- C2: poll reports ready iff, after this poll's draining step, the
lifecycle pollable is absent and the pending list is empty; and while the
lifecycle pollable is present and not-ready, poll reports not-ready and
leaves the Watcher state unchanged (the lifecycle pollable still present,
its internal cursor advanced by the one poll made). -/
theorem c2_ready_iff_drained_and_absent (w : Watcher) :
    ((w.poll).res = PollRes.ready ↔
      ((w.poll).state.fut = none ∧ (w.poll).state.notifications = []))
    ∧ (∀ f, w.fut = some f → f.behav f.polls = PollRes.notReady →
        (w.poll).res = PollRes.notReady
        ∧ (w.poll).state.subscribers = w.subscribers
        ∧ (w.poll).state.notifications = w.notifications
        ∧ (w.poll).state.fut = some { f with polls := f.polls + 1 }) := by
  refine ⟨poll_ready_iff w, ?_⟩
  intro f h hr
  rw [poll_eq_notReady _ f h hr]
  exact ⟨rfl, rfl, rfl, rfl⟩

/-- C1: sends happen exactly at the poll that observes termination, one per
subscriber in order (`List.range`), never before resolution and never again
afterwards: the firing poll is unique across the whole run. -/
theorem c1_send_stopped_exactly_once (w : Watcher) (n : Nat) :
    (w.sentAt n = if w.firesAt n then List.range w.subscribers.length else [])
    ∧ (∀ m, w.firesAt n = true → w.firesAt m = true → m = n) := by
  constructor
  · rcases h : (w.iter n).fut with _ | f
    · have hfire : w.firesAt n = false := not_fires_of_fut_none w n h
      rw [hfire, Watcher.sentAt, poll_eq_fut_none _ h]
      simp
    · cases hr : f.behav f.polls
      case notReady =>
        have hfire : w.firesAt n = false := by
          rw [Watcher.firesAt, pfe_notReady _ f h hr]
          rfl
        rw [hfire, Watcher.sentAt, poll_eq_notReady _ f h hr]
        simp
      all_goals {
        have hne : f.behav f.polls ≠ PollRes.notReady := by rw [hr]; simp
        have hfire : w.firesAt n = true := (firesAt_iff w n).mpr ⟨f, h, hne⟩
        rw [hfire, Watcher.sentAt, poll_eq_fired _ f h hne, subscribers_iter]
        simp }
  · intro m hn hm
    by_contra hne
    rcases Nat.lt_or_ge m n with hlt | hge
    · have h1 : (w.iter (m + 1)).fut = none := fut_succ_none_of_fires w m hm
      have h2 : (w.iter n).fut = none := fut_iter_none_mono w (m + 1) n h1 hlt
      rcases (firesAt_iff w n).mp hn with ⟨f, hf, _⟩
      rw [h2] at hf
      exact Option.noConfusion hf
    · have hlt : n < m := Nat.lt_of_le_of_ne hge fun hq => hne hq.symm
      have h1 : (w.iter (n + 1)).fut = none := fut_succ_none_of_fires w n hn
      have h2 : (w.iter m).fut = none := fut_iter_none_mono w (n + 1) m h1 hlt
      rcases (firesAt_iff w m).mp hm with ⟨f, hf, _⟩
      rw [h2] at hf
      exact Option.noConfusion hf

theorem poll_done (w : Watcher) (h : w.fut = none) (h2 : w.notifications = []) :
    (w.poll).res = PollRes.ready := by
  rw [poll_eq_fut_none _ h, poll_notifications_res, h2]
  simp

theorem poll_res_ne_err (w : Watcher) : (w.poll).res ≠ PollRes.err := by
  rcases h : w.fut with _ | f
  · rw [poll_eq_fut_none _ h, poll_notifications_res]
    split <;> simp
  · cases hr : f.behav f.polls
    case notReady =>
      rw [poll_eq_notReady _ f h hr]
      simp
    all_goals {
      have hne : f.behav f.polls ≠ PollRes.notReady := by rw [hr]; simp
      rw [poll_eq_fired _ f h hne, poll_notifications_res]
      split <;> simp }

/-- C3 counterexample: a Watcher polled past completion reports ready again,
so over an arbitrary sequence of polls ready is NOT reported exactly once in
total: `wInstant` reports ready at poll 0 and again at poll 1. -/
theorem c3_counterexample_ready_twice :
    wInstant.resAt 0 = PollRes.ready ∧ wInstant.resAt 1 = PollRes.ready :=
  ⟨rfl, rfl⟩

/-- C3 (amended): ready is reported only at a poll after which the lifecycle
is absent and `pending` is empty; the Done state is terminal, so once ready
is reported every later poll reports ready again (hence a scheduler that
discards the Watcher at its first ready observes ready exactly once); and
the Watcher itself never reports failure. -/
theorem c3_amended_ready_only_when_done (w : Watcher) (n : Nat) :
    (w.resAt n = PollRes.ready ↔
      ((w.iter (n + 1)).fut = none ∧ (w.iter (n + 1)).notifications = []))
    ∧ (w.resAt n = PollRes.ready → w.resAt (n + 1) = PollRes.ready)
    ∧ w.resAt n ≠ PollRes.err := by
  refine ⟨poll_ready_iff (w.iter n), ?_, poll_res_ne_err (w.iter n)⟩
  intro hready
  have hd := (poll_ready_iff (w.iter n)).mp hready
  exact poll_done (w.iter (n + 1)) hd.1 hd.2

theorem pollKeep_eq_some (p p' : Pollable) :
    Pollable.pollKeep p = some p' ↔
      (p.behav p.polls = PollRes.notReady ∧ p' = { p with polls := p.polls + 1 }) := by
  cases hr : p.behav p.polls <;>
    simp [Pollable.pollKeep, Pollable.poll, hr, eq_comm]

/-- C4: in a draining poll every entry currently in `pending` is polled
exactly once — the surviving list is the one-poll filterMap of the previous
list (in reverse traversal order): not-ready entries are kept with their
cursor advanced by exactly one, ready or failed entries are removed.  This
holds for `poll_notifications` itself, for a Watcher poll with the lifecycle
already absent, and for the poll that observes termination (where the fresh
deliveries are appended first). -/
theorem c4_drain_polls_each_entry_once (w : Watcher) :
    ((w.poll_notifications).2.notifications
        = w.notifications.reverse.filterMap Pollable.pollKeep)
    ∧ (w.fut = none →
        (w.poll).state.notifications
          = w.notifications.reverse.filterMap Pollable.pollKeep)
    ∧ (∀ f, w.fut = some f → f.behav f.polls ≠ PollRes.notReady →
        (w.poll).state.notifications
          = (w.notifications
              ++ w.subscribers.map (fun s => s.send WatchEvent.Stopped)).reverse.filterMap
              Pollable.pollKeep)
    ∧ (∀ p', p' ∈ (w.poll_notifications).2.notifications →
        ∃ p, p ∈ w.notifications ∧ Pollable.pollKeep p = some p'
          ∧ p'.polls = p.polls + 1) := by
  refine ⟨?_, ?_, ?_, ?_⟩
  · rw [poll_notifications_state]
  · intro h
    rw [poll_eq_fut_none _ h, poll_notifications_state]
  · intro f h hne
    rw [poll_eq_fired _ f h hne, poll_notifications_state]
  · intro p' hp'
    rw [poll_notifications_state] at hp'
    rcases List.mem_filterMap.mp hp' with ⟨p, hp, hk⟩
    rw [List.mem_reverse] at hp
    rcases (pollKeep_eq_some p p').mp hk with ⟨_, hpe⟩
    exact ⟨p, hp, hk, by rw [hpe]⟩

/-- C5: the lifecycle slot is never re-populated — once absent it stays
absent forever; while absent, `poll_for_event` makes no poll at all (the
discarded pollable is never polled again); and the present-to-absent
transition happens at most once over any run. -/
theorem c5_lifecycle_transition_once (w : Watcher) (n m : Nat) :
    ((w.iter n).fut = none → n ≤ m → (w.iter m).fut = none)
    ∧ ((w.iter n).fut = none → (w.iter n).poll_for_event = (none, w.iter n))
    ∧ ((w.iter n).fut ≠ none → (w.iter (n + 1)).fut = none →
        (w.iter m).fut ≠ none → (w.iter (m + 1)).fut = none → n = m) := by
  refine ⟨fut_iter_none_mono w n m, pfe_none _, ?_⟩
  intro hn hn1 hm hm1
  by_contra hne
  rcases Nat.lt_or_ge n m with hlt | hge
  · exact hm (fut_iter_none_mono w (n + 1) m hn1 hlt)
  · have hlt2 : m < n := Nat.lt_of_le_of_ne hge fun hq => hne hq.symm
    exact hn (fut_iter_none_mono w (m + 1) n hm1 hlt2)

/-- C6: a lifecycle future that fails is observationally identical to one
that succeeds: the whole poll output (result, post-state, and the trace of
`send` invocations) is equal, and the only event that can ever be sent is
`Stopped` — there is no distinct error payload. -/
theorem c6_failure_indistinguishable_from_success (w : Watcher) (f g : Pollable)
    (hf : f.behav f.polls = PollRes.ready) (hg : g.behav g.polls = PollRes.err) :
    Watcher.poll { w with fut := some f } = Watcher.poll { w with fut := some g }
    ∧ ∀ e : WatchEvent, e = WatchEvent.Stopped := by
  constructor
  · rw [poll_eq_fired { w with fut := some f } f rfl (by rw [hf]; simp)]
    rw [poll_eq_fired { w with fut := some g } g rfl (by rw [hg]; simp)]
  · intro e
    cases e
    rfl

/-- C7: a pending delivery that resolves with failure has exactly the same
effect on the Watcher as one that resolves with success: the entry is
removed, and the poll result and the rest of the state are identical. -/
theorem c7_failed_delivery_counts_as_success (w : Watcher) (l r : List Pollable)
    (p q : Pollable) (hp : p.behav p.polls = PollRes.ready)
    (hq : q.behav q.polls = PollRes.err) :
    Watcher.poll_notifications { w with notifications := l ++ p :: r }
      = Watcher.poll_notifications { w with notifications := l ++ q :: r } := by
  have hp' : Pollable.pollKeep p = none := by
    simp [Pollable.pollKeep, Pollable.poll, hp]
  have hq' : Pollable.pollKeep q = none := by
    simp [Pollable.pollKeep, Pollable.poll, hq]
  have key : List.filterMap Pollable.pollKeep (l ++ p :: r).reverse
      = List.filterMap Pollable.pollKeep (l ++ q :: r).reverse := by
    simp [hp', hq']
  simp only [Watcher.poll_notifications]
  rw [drainLoop_eq, drainLoop_eq, key]

theorem immortal_survives_drain (ns : List Pollable) (p : Pollable)
    (hp : p ∈ ns) (him : ∀ k, p.behav k = PollRes.notReady) :
    ∃ q, q ∈ ns.reverse.filterMap Pollable.pollKeep
      ∧ ∀ k, q.behav k = PollRes.notReady := by
  refine ⟨{ p with polls := p.polls + 1 }, ?_, him⟩
  exact List.mem_filterMap.mpr
    ⟨p, List.mem_reverse.mpr hp, (pollKeep_eq_some p _).mpr ⟨him p.polls, rfl⟩⟩

theorem immortal_step (w : Watcher)
    (h : ∃ p, p ∈ w.notifications ∧ ∀ k, p.behav k = PollRes.notReady) :
    (w.poll).res ≠ PollRes.ready
    ∧ ∃ p, p ∈ (w.poll).state.notifications
        ∧ ∀ k, p.behav k = PollRes.notReady := by
  rcases h with ⟨p, hp, him⟩
  rcases hf : w.fut with _ | f
  · rcases immortal_survives_drain w.notifications p hp him with ⟨q, hq, him'⟩
    rw [poll_eq_fut_none _ hf, poll_notifications_res, poll_notifications_state]
    have hne : (w.notifications.reverse.filterMap Pollable.pollKeep).isEmpty = false :=
      Bool.eq_false_iff.mpr fun ht => (List.ne_nil_of_mem hq) (List.isEmpty_iff.mp ht)
    rw [hne]
    exact ⟨by simp, q, hq, him'⟩
  · cases hr : f.behav f.polls
    case notReady =>
      rw [poll_eq_notReady _ f hf hr]
      exact ⟨by simp, p, hp, him⟩
    all_goals {
      have hnr : f.behav f.polls ≠ PollRes.notReady := by rw [hr]; simp
      have hp2 : p ∈ w.notifications
          ++ w.subscribers.map (fun s => s.send WatchEvent.Stopped) :=
        List.mem_append_left _ hp
      rcases immortal_survives_drain _ p hp2 him with ⟨q, hq, him'⟩
      rw [poll_eq_fired _ f hf hnr, poll_notifications_res, poll_notifications_state]
      have hne : ((w.notifications
          ++ w.subscribers.map (fun s => s.send WatchEvent.Stopped)).reverse.filterMap
            Pollable.pollKeep).isEmpty = false :=
        Bool.eq_false_iff.mpr fun ht => (List.ne_nil_of_mem hq) (List.isEmpty_iff.mp ht)
      rw [hne]
      exact ⟨by simp, q, hq, him'⟩ }

/-- C8: starvation hazard — once the lifecycle transition has happened, if
some pending delivery answers not-ready on every poll forever, the Watcher
never reports ready on any subsequent poll. -/
theorem c8_permanently_not_ready_delivery_starves (w : Watcher)
    (_hfut : w.fut = none)
    (h : ∃ p, p ∈ w.notifications ∧ ∀ k, p.behav k = PollRes.notReady) :
    ∀ n, w.resAt n ≠ PollRes.ready := by
  have key : ∀ n, ∃ p, p ∈ (w.iter n).notifications
      ∧ ∀ k, p.behav k = PollRes.notReady := by
    intro n
    induction n with
    | zero => exact h
    | succ n ih => exact (immortal_step _ ih).2
  intro n
  exact (immortal_step _ (key n)).1

theorem inv_step_no_pending (w : Watcher)
    (h : w.fut.isSome = true → w.notifications = []) :
    (w.poll).state.fut.isSome = true → (w.poll).state.notifications = [] := by
  intro hs
  rcases hf : w.fut with _ | f
  · rw [fut_poll_of_none _ hf] at hs
    simp at hs
  · cases hr : f.behav f.polls
    case notReady =>
      rw [poll_eq_notReady _ f hf hr]
      exact h (by rw [hf]; rfl)
    all_goals {
      have hnr : f.behav f.polls ≠ PollRes.notReady := by rw [hr]; simp
      rw [fut_poll_of_fired _ f hf hnr] at hs
      simp at hs }

/-- C10: a Watcher built by `Watcher::new` never simultaneously holds a live
lifecycle future and outstanding deliveries: whenever the lifecycle future is
still present, the pending list is empty. -/
theorem c10_live_entity_no_pending (r : Recipient) (f : Pollable) (n : Nat)
    (h : ((Watcher.new r f).iter n).fut.isSome = true) :
    ((Watcher.new r f).iter n).notifications = [] := by
  induction n with
  | zero => rfl
  | succ n ih => exact inv_step_no_pending _ ih h

/-- C9: `start_in_arbiter` builds a bounded channel with the fixed default
capacity up front, immediately returns the address bound to its send side,
appends exactly one Execute closure to the target scheduler's queue with the
build function still unapplied (the entity is not yet constructed), and only
running that closure constructs the entity, its run future, and the Watcher
registration. -/
theorem c9_start_in_arbiter_defers_construction (A : Type) (sys : List (Execute A))
    (r : Recipient) (f : ActorContext → A) :
    (start_in_arbiter sys r f).1 = Addr.new (channel DEFAULT_CAPACITY).1
    ∧ (start_in_arbiter sys r f).1.sender.capacity = DEFAULT_CAPACITY
    ∧ (start_in_arbiter sys r f).2
        = sys ++ [{ rx := (channel DEFAULT_CAPACITY).2, subscriber := r, build := f }]
    ∧ (∀ into_future : ActorContext → A → Pollable,
        Execute.run into_future
            { rx := (channel DEFAULT_CAPACITY).2, subscriber := r, build := f }
          = Watcher.new r
              (into_future { rx := (channel DEFAULT_CAPACITY).2 }
                (f { rx := (channel DEFAULT_CAPACITY).2 }))) :=
  ⟨rfl, rfl, rfl, fun _ => rfl⟩

/-- Witness for C1 at a concrete input: `wInstant` fires at poll 0, sends to
its single subscriber exactly there, and poll 0 is the unique firing poll. -/
theorem c1_witness :
    wInstant.firesAt 0 = true
    ∧ wInstant.sentAt 0
        = (if wInstant.firesAt 0 then List.range wInstant.subscribers.length else [])
    ∧ (0 : Nat) = 0 :=
  ⟨rfl, (c1_send_stopped_exactly_once wInstant 0).1,
    (c1_send_stopped_exactly_once wInstant 0).2 0 rfl rfl⟩

/-- Witness for C2 at a concrete input: a present, not-ready lifecycle makes
the poll report not-ready. -/
theorem c2_witness :
    wNotYet.fut = some alwaysNotReady
    ∧ alwaysNotReady.behav alwaysNotReady.polls = PollRes.notReady
    ∧ (wNotYet.poll).res = PollRes.notReady :=
  ⟨rfl, rfl,
    ((c2_ready_iff_drained_and_absent wNotYet).2 alwaysNotReady rfl rfl).1⟩

/-- Witness for the amended C3 at a concrete input: after `wInstant` reports
ready at poll 0, its state is Done and poll 1 reports ready again. -/
theorem c3_amended_witness :
    (wInstant.iter 1).fut = none
    ∧ (wInstant.iter 1).notifications = []
    ∧ wInstant.resAt 1 = PollRes.ready :=
  ⟨((c3_amended_ready_only_when_done wInstant 0).1.mp rfl).1,
    ((c3_amended_ready_only_when_done wInstant 0).1.mp rfl).2,
    (c3_amended_ready_only_when_done wInstant 0).2.1 rfl⟩

/-- Witness for C4 at a concrete input: draining `wDrain` polls its single
pending entry once and keeps it, cursor advanced by one. -/
theorem c4_witness :
    wDrain.fut = none
    ∧ (wDrain.poll).state.notifications
        = wDrain.notifications.reverse.filterMap Pollable.pollKeep
    ∧ ∃ p, p ∈ wDrain.notifications
        ∧ Pollable.pollKeep p = some { alwaysNotReady with polls := 1 }
        ∧ ({ alwaysNotReady with polls := 1 } : Pollable).polls = p.polls + 1 :=
  ⟨rfl, (c4_drain_polls_each_entry_once wDrain).2.1 rfl,
    (c4_drain_polls_each_entry_once wDrain).2.2.2
      { alwaysNotReady with polls := 1 } (List.Mem.head _)⟩

/-- Witness for C5 at concrete inputs: `wDone` keeps its lifecycle absent
from poll 0 to poll 2, makes no lifecycle poll, and `wInstant`'s unique
transition is at poll 0. -/
theorem c5_witness :
    (wDone.iter 2).fut = none
    ∧ (wDone.iter 0).poll_for_event = (none, wDone.iter 0)
    ∧ (0 : Nat) = 0 :=
  ⟨(c5_lifecycle_transition_once wDone 0 2).1 rfl (by decide),
    (c5_lifecycle_transition_once wDone 0 2).2.1 rfl,
    (c5_lifecycle_transition_once wInstant 0 0).2.2
      (fun hq => Option.noConfusion hq) rfl
      (fun hq => Option.noConfusion hq) rfl⟩

/-- Witness for C6 at a concrete input: a lifecycle resolving `Err` on its
first poll gives the identical poll output to one resolving `Ready`. -/
theorem c6_witness :
    alwaysReady.behav alwaysReady.polls = PollRes.ready
    ∧ alwaysErr.behav alwaysErr.polls = PollRes.err
    ∧ Watcher.poll { wDone with fut := some alwaysReady }
        = Watcher.poll { wDone with fut := some alwaysErr } :=
  ⟨rfl, rfl,
    (c6_failure_indistinguishable_from_success wDone alwaysReady alwaysErr rfl rfl).1⟩

/-- Witness for C7 at a concrete input: a delivery failing on its first poll
is drained exactly like one succeeding on its first poll. -/
theorem c7_witness :
    Watcher.poll_notifications { wDone with notifications := [] ++ alwaysReady :: [] }
      = Watcher.poll_notifications { wDone with notifications := [] ++ alwaysErr :: [] } :=
  c7_failed_delivery_counts_as_success wDone [] [] alwaysReady alwaysErr rfl rfl

/-- Witness for C8 at a concrete input: `wDrain` never reports ready, e.g.
at poll 5. -/
theorem c8_witness :
    wDrain.fut = none ∧ wDrain.resAt 5 ≠ PollRes.ready :=
  ⟨rfl,
    c8_permanently_not_ready_delivery_starves wDrain rfl
      ⟨alwaysNotReady, List.Mem.head _, fun _ => rfl⟩ 5⟩

/-- Witness for C10 at a concrete input: after 3 polls of a never-resolving
supervised future the lifecycle is still present and the pending list still
empty. -/
theorem c10_witness :
    ((Watcher.new readyRecipient alwaysNotReady).iter 3).fut.isSome = true
    ∧ ((Watcher.new readyRecipient alwaysNotReady).iter 3).notifications = [] :=
  ⟨rfl, c10_live_entity_no_pending readyRecipient alwaysNotReady 3 rfl⟩
